import Mathlib

/-!
Verification of the FilmLab stock-LUT generator
(`scripts/generate_stock_luts.py`).

The Python reference operates on IEEE doubles; the embedding models the
channel arithmetic over the real numbers, with the float power operator
`x ** y` translated to `Real.rpow`.  Python raises `ZeroDivisionError` on
`0.0 ** y` for negative `y` and on float division by zero, so those two
operations are embedded as `Option`-valued functions; every other
operation of the script is total.  Byte-level code (the PNG container
writer) is embedded over `List ℕ`, one natural number per byte, and
`struct.pack ">I"` is `Except`-valued because it raises `struct.error`
for values outside 32 bits.  The external services `zlib.compress` and
`zlib.crc32` are untrusted parameters, as the specification treats them
as black boxes.
-/

/-- A color triple, `(r, g, b)`. -/
abbrev Rgb := ℝ × ℝ × ℝ

/-- Source `clamp(value, low=0.0, high=1.0)` with the default bounds. -/
noncomputable def clamp (value : ℝ) : ℝ :=
  max 0 (min 1 value)

/-- Source `srgb_to_linear(channel)`; the local `c = clamp(channel)` is inlined. -/
noncomputable def srgb_to_linear (channel : ℝ) : ℝ :=
  if clamp channel ≤ 0.04045 then clamp channel / 12.92
  else ((clamp channel + 0.055) / 1.055) ^ (2.4 : ℝ)

/-- Source `linear_to_srgb(channel)`; the local `c = clamp(channel)` is inlined. -/
noncomputable def linear_to_srgb (channel : ℝ) : ℝ :=
  if clamp channel ≤ 0.0031308 then clamp channel * 12.92
  else 1.055 * clamp channel ^ ((1.0 : ℝ) / 2.4) - 0.055

/-- Source `rgb_to_luma(linear_rgb)`: the BT.709 weighted sum. -/
noncomputable def rgb_to_luma (linear_rgb : Rgb) : ℝ :=
  linear_rgb.1 * 0.2126 + linear_rgb.2.1 * 0.7152 + linear_rgb.2.2 * 0.0722

/-- Python `pow(x, y)` on floats, for a nonnegative base: it raises
`ZeroDivisionError` when the base is zero and the exponent negative, and
otherwise agrees with the real power (`Real.rpow` also maps `0 ^ 0` to `1`
and `0 ^ y` to `0` for `y > 0`, as Python does). -/
noncomputable def rpowOpt (x y : ℝ) : Option ℝ :=
  if x = 0 ∧ y < 0 then none else some (x ^ y)

/-- Source `grade_color(rgb, *, saturation, contrast, gamma, lift, gain, warmth,
cool, shadow_teal)`, lines 42–91 of the script, with the straight-line
float assignments rendered as `let` rebindings in source order. -/
noncomputable def grade_color (rgb : Rgb) (saturation contrast gamma lift gain warmth cool shadow_teal : ℝ) :
    Option Rgb :=
  let lr := srgb_to_linear rgb.1
  let lg := srgb_to_linear rgb.2.1
  let lb := srgb_to_linear rgb.2.2
  let lum := rgb_to_luma (lr, lg, lb)
  let lr := lr * (1.0 + warmth * 0.12 - cool * 0.05)
  let lg := lg * (1.0 + warmth * 0.02 - cool * 0.01)
  let lb := lb * (1.0 - warmth * 0.10 + cool * 0.12)
  let shadow_weight := clamp (1.0 - lum * 1.8)
  let lr := lr - shadow_teal * 0.03 * shadow_weight
  let lg := lg + shadow_teal * 0.01 * shadow_weight
  let lb := lb + shadow_teal * 0.04 * shadow_weight
  let lum2 := rgb_to_luma (lr, lg, lb)
  let lr := lum2 + (lr - lum2) * saturation
  let lg := lum2 + (lg - lum2) * saturation
  let lb := lum2 + (lb - lum2) * saturation
  let pivot := (0.18 : ℝ)
  let lr := (lr - pivot) * contrast + pivot
  let lg := (lg - pivot) * contrast + pivot
  let lb := (lb - pivot) * contrast + pivot
  let lr := (lr + lift) * gain
  let lg := (lg + lift) * gain
  let lb := (lb + lift) * gain
  if |gamma - 1.0| > 1e-6 then do
    let lr ← rpowOpt (max lr 0.0) gamma
    let lg ← rpowOpt (max lg 0.0) gamma
    let lb ← rpowOpt (max lb 0.0) gamma
    pure (clamp (linear_to_srgb (clamp lr)),
          clamp (linear_to_srgb (clamp lg)),
          clamp (linear_to_srgb (clamp lb)))
  else
    pure (clamp (linear_to_srgb (clamp lr)),
          clamp (linear_to_srgb (clamp lg)),
          clamp (linear_to_srgb (clamp lb)))

/-- The weighted sum of line 103 of `grade_bw`, before its clamp. -/
noncomputable def weighted_lum (rgb weights : Rgb) : ℝ :=
  srgb_to_linear rgb.1 * weights.1 + srgb_to_linear rgb.2.1 * weights.2.1 +
    srgb_to_linear rgb.2.2 * weights.2.2

/-- The luma value of `grade_bw` after lines 103–104: clamp of the weighted
sum, then clamp of the contrast stage around pivot 0.18. -/
noncomputable def bw_lum (rgb weights : Rgb) (contrast : ℝ) : ℝ :=
  clamp ((clamp (weighted_lum rgb weights) - 0.18) * contrast + 0.18)

/-- Source `grade_bw(rgb, *, weights, contrast, gamma, warm_tone)`, lines 94–111. -/
noncomputable def grade_bw (rgb weights : Rgb) (contrast gamma warm_tone : ℝ) : Option Rgb :=
  (rpowOpt (max (bw_lum rgb weights contrast) 0.0) gamma).map fun lum =>
    (clamp (linear_to_srgb (clamp (lum * (1.0 + warm_tone * 0.025)))),
     clamp (linear_to_srgb (clamp (lum * (1.0 + warm_tone * 0.008)))),
     clamp (linear_to_srgb (clamp (lum * (1.0 - warm_tone * 0.02)))))

/-! Stage functions transcribed from the specification's description of the
full-color pipeline (§4.2), used to state the stage-order claim. -/

/-- Spec stage: decode each channel to linear. -/
noncomputable def decode_stage (c : Rgb) : Rgb :=
  (srgb_to_linear c.1, srgb_to_linear c.2.1, srgb_to_linear c.2.2)

/-- Spec stage (1): per-channel linear white-balance scaling. -/
noncomputable def wb_stage (warmth cool : ℝ) (c : Rgb) : Rgb :=
  (c.1 * (1.0 + warmth * 0.12 - cool * 0.05),
   c.2.1 * (1.0 + warmth * 0.02 - cool * 0.01),
   c.2.2 * (1.0 - warmth * 0.10 + cool * 0.12))

/-- Spec stage (2): shadow-weighted teal/cyan bias, with
shadow weight `clamp(1 - luma * 1.8, 0, 1)`. -/
noncomputable def shadow_teal_stage (shadow_teal lum : ℝ) (c : Rgb) : Rgb :=
  let shadow_weight := clamp (1.0 - lum * 1.8)
  (c.1 - shadow_teal * 0.03 * shadow_weight,
   c.2.1 + shadow_teal * 0.01 * shadow_weight,
   c.2.2 + shadow_teal * 0.04 * shadow_weight)

/-- Spec stage (3): recompute luma, interpolate each channel toward it by
factor `saturation`. -/
noncomputable def saturation_stage (saturation : ℝ) (c : Rgb) : Rgb :=
  let lum2 := rgb_to_luma c
  (lum2 + (c.1 - lum2) * saturation,
   lum2 + (c.2.1 - lum2) * saturation,
   lum2 + (c.2.2 - lum2) * saturation)

/-- Spec stage (4): scale deviation from pivot 0.18 by `contrast`. -/
noncomputable def contrast_stage (contrast : ℝ) (c : Rgb) : Rgb :=
  ((c.1 - 0.18) * contrast + 0.18,
   (c.2.1 - 0.18) * contrast + 0.18,
   (c.2.2 - 0.18) * contrast + 0.18)

/-- Spec stage (5): additive lift then multiplicative gain. -/
noncomputable def lift_gain_stage (lift gain : ℝ) (c : Rgb) : Rgb :=
  ((c.1 + lift) * gain, (c.2.1 + lift) * gain, (c.2.2 + lift) * gain)

/-- Spec stage (6): power-law gamma on the clamped non-negative linear
value, taken only when `|gamma - 1.0| > 1e-6`. -/
noncomputable def gamma_stage (gamma : ℝ) (c : Rgb) : Option Rgb :=
  if |gamma - 1.0| > 1e-6 then do
    let r ← rpowOpt (max c.1 0.0) gamma
    let g ← rpowOpt (max c.2.1 0.0) gamma
    let b ← rpowOpt (max c.2.2 0.0) gamma
    pure (r, g, b)
  else
    pure c

/-- Spec final step: clamp to `[0,1]`, re-encode, clamp again. -/
noncomputable def encode_stage (c : Rgb) : Rgb :=
  (clamp (linear_to_srgb (clamp c.1)),
   clamp (linear_to_srgb (clamp c.2.1)),
   clamp (linear_to_srgb (clamp c.2.2)))

/-- The full-color pipeline exactly as the specification orders it:
decode, then stages (1)–(6), then the final clamp/encode/clamp. -/
noncomputable def spec_color_pipeline (rgb : Rgb)
    (saturation contrast gamma lift gain warmth cool shadow_teal : ℝ) : Option Rgb :=
  let lin := decode_stage rgb
  let lum := rgb_to_luma lin
  (gamma_stage gamma
      (lift_gain_stage lift gain
        (contrast_stage contrast
          (saturation_stage saturation
            (shadow_teal_stage shadow_teal lum
              (wb_stage warmth cool lin)))))).map encode_stage

/-! The Hald-CLUT sampler, `generate_hald_lut` (lines 252–276). -/

/-- Sampler expression `index % size`: red cube coordinate of a sample index. -/
def r_index (index size : ℕ) : ℕ := index % size

/-- Sampler expression `(index // size) % size`: green cube coordinate of a sample index. -/
def g_index (index size : ℕ) : ℕ := index / size % size

/-- Sampler expression `index // (size * size)`: blue cube coordinate of a sample index. -/
def b_index (index size : ℕ) : ℕ := index / (size * size)

/-- Sampler expression `index % width`: output pixel column of a sample index. -/
def pixel_x (index width : ℕ) : ℕ := index % width

/-- Sampler expression `index // width`: output pixel row of a sample index. -/
def pixel_y (index width : ℕ) : ℕ := index / width

/-- Python's `round` on floats: round half to even. -/
noncomputable def pyRound (x : ℝ) : ℤ :=
  if Int.fract x = 1 / 2 then (if Even ⌊x⌋ then ⌊x⌋ else ⌊x⌋ + 1) else round x

/-- Source expression `int(round(clamp(v) * 255))` for one output channel. -/
noncomputable def byte_of (v : ℝ) : ℕ :=
  (pyRound (clamp v * 255)).toNat

/-- The four buffer stores `out[offset+0..3] = r, g, b, a`. -/
def write_pixel4 (out : List ℕ) (offset r g b a : ℕ) : List ℕ :=
  (((out.set offset r).set (offset + 1) g).set (offset + 2) b).set (offset + 3) a

/-- Source `generate_hald_lut(transform, level)`.  The result is `none` exactly
when the Python loop performs a float division by zero, which happens when
`denom = size - 1` is zero and at least one index is visited. -/
noncomputable def generate_hald_lut (transform : Rgb → Rgb) (level : ℕ) : Option (List ℕ) :=
  let size := level * level
  let width := level * size
  let height := width
  let total_pixels := size * size * size
  let denom : ℝ := (size : ℝ) - 1
  if denom = 0 ∧ 0 < total_pixels then none
  else
    some ((List.range total_pixels).foldl
      (fun out index =>
        let source : Rgb :=
          ((r_index index size : ℝ) / denom, (g_index index size : ℝ) / denom,
           (b_index index size : ℝ) / denom)
        let c := transform source
        let x := pixel_x index width
        let y := pixel_y index width
        let offset := (y * width + x) * 4
        write_pixel4 out offset (byte_of c.1) (byte_of c.2.1) (byte_of c.2.2) 255)
      (List.replicate (width * height * 4) 0))

/-! The PNG container writer, `write_png_rgba` (lines 226–249), over byte
lists.  `compress` stands for `zlib.compress(·, level=9)` and `crc32` for
`zlib.crc32`; both are black-box parameters per the specification. -/

/-- The fixed 8-byte PNG signature `b"\x89PNG\r\n\x1a\n"`. -/
def pngSignature : List ℕ := [137, 80, 78, 71, 13, 10, 26, 10]

/-- The 4 ASCII bytes of the `IHDR` tag. -/
def ihdrTag : List ℕ := [73, 72, 68, 82]

/-- The 4 ASCII bytes of the `IDAT` tag. -/
def idatTag : List ℕ := [73, 68, 65, 84]

/-- The 4 ASCII bytes of the `IEND` tag. -/
def iendTag : List ℕ := [73, 69, 78, 68]

/-- The 4-byte big-endian encoding of a 32-bit value. -/
def u32bytes (n : ℕ) : List ℕ :=
  [n / 16777216 % 256, n / 65536 % 256, n / 256 % 256, n % 256]

/-- Model of `struct.pack(">I", n)`: it raises `struct.error` outside 32 bits. -/
def pack32 (n : ℕ) : Except String (List ℕ) :=
  if n < 4294967296 then Except.ok (u32bytes n) else Except.error "struct.error: argument out of range"

/-- The inner `chunk(tag, payload)` helper: length prefix, tag, payload,
then CRC-32 of tag + payload masked to 32 bits. -/
def chunkBytes (crc32 : List ℕ → ℕ) (tag payload : List ℕ) : Except String (List ℕ) := do
  let lenB ← pack32 payload.length
  pure (lenB ++ tag ++ payload ++ u32bytes (crc32 (tag ++ payload) % 4294967296))

/-- The filtered scanline stream: each row of `width*4` bytes prefixed with
the filter-type byte 0. -/
def scanlinesOf (width height : ℕ) (rgba : List ℕ) : List ℕ :=
  (List.range height).flatMap fun y =>
    0 :: ((rgba.drop (y * (width * 4))).take (width * 4))

/-- Source `write_png_rgba(path, width, height, rgba)` up to the final
`path.write_bytes`: the byte stream written, or the raised error. -/
def write_png_rgba (width height : ℕ) (rgba : List ℕ) (compress : List ℕ → List ℕ)
    (crc32 : List ℕ → ℕ) : Except String (List ℕ) :=
  if rgba.length ≠ width * height * 4 then Except.error "Invalid RGBA buffer size."
  else do
    let scanlines := scanlinesOf width height rgba
    let wB ← pack32 width
    let hB ← pack32 height
    let ihdr := wB ++ hB ++ [8, 6, 0, 0, 0]
    let idat := compress scanlines
    let c1 ← chunkBytes crc32 ihdrTag ihdr
    let c2 ← chunkBytes crc32 idatTag idat
    let c3 ← chunkBytes crc32 iendTag []
    pure (pngSignature ++ c1 ++ c2 ++ c3)

/-! A chunk-stream reader written from the specification's grammar
(§3 EncodedImage / §4.4), used to state the container-structure claim:
a chunk is a 4-byte big-endian payload length, a 4-byte tag, the payload,
and a 4-byte big-endian CRC-32 over tag + payload; the stream is the
signature followed by the chunk sequence and nothing else. -/

/-- The value of a 4-byte big-endian field. -/
def be32val (l : List ℕ) : ℕ :=
  match l with
  | [a, b, c, d] => ((a * 256 + b) * 256 + c) * 256 + d
  | _ => 0

/-- Split a byte stream into its chunk sequence: `some` list of
`(tag, payload)` pairs when the stream is exactly a sequence of
well-formed chunks whose stored CRCs match `crc32 (tag ++ payload)`
masked to 32 bits; `none` otherwise.  The first argument is fuel, in
practice the stream length. -/
def parseChunks (crc32 : List ℕ → ℕ) : ℕ → List ℕ → Option (List (List ℕ × List ℕ))
  | _, [] => some []
  | 0, _ :: _ => none
  | fuel + 1, x :: xs =>
    let l := x :: xs
    let n := be32val (l.take 4)
    if 12 + n ≤ l.length then
      let tag := (l.drop 4).take 4
      let payload := (l.drop 8).take n
      let crcStored := (l.drop (8 + n)).take 4
      if be32val crcStored = crc32 (tag ++ payload) % 4294967296 then
        (parseChunks crc32 fuel (l.drop (12 + n))).map fun rest => (tag, payload) :: rest
      else none
    else none

/-- Read a PNG stream: check the 8-byte signature, then split the rest
into chunks. -/
def parsePng (crc32 : List ℕ → ℕ) (l : List ℕ) : Option (List (List ℕ × List ℕ)) :=
  if l.take 8 = pngSignature then parseChunks crc32 l.length (l.drop 8) else none

/-- The byte rendering of one chunk, as both the writer emits it and the
specification's grammar describes it: length prefix, tag, payload, masked
CRC of tag + payload. -/
def chunk_bytes_val (crc32 : List ℕ → ℕ) (tag payload : List ℕ) : List ℕ :=
  u32bytes payload.length ++ tag ++ payload ++ u32bytes (crc32 (tag ++ payload) % 4294967296)

/-! Helper lemmas. -/

theorem clamp_nonneg (x : ℝ) : 0 ≤ clamp x := le_max_left 0 _

theorem clamp_le_one (x : ℝ) : clamp x ≤ 1 := by
  unfold clamp
  exact max_le (by norm_num) (min_le_left 1 x)

theorem clamp_of_mem {x : ℝ} (h0 : 0 ≤ x) (h1 : x ≤ 1) : clamp x = x := by
  unfold clamp
  rw [min_eq_right h1, max_eq_right h0]

theorem clamp_of_le_zero {x : ℝ} (h : x ≤ 0) : clamp x = 0 := by
  unfold clamp
  rw [min_eq_right (by linarith), max_eq_left h]

theorem clamp_of_one_le {x : ℝ} (h : 1 ≤ x) : clamp x = 1 := by
  unfold clamp
  rw [min_eq_left h, max_eq_right (by norm_num)]

theorem rpowOpt_of_nonneg (x : ℝ) {y : ℝ} (hy : 0 ≤ y) : rpowOpt x y = some (x ^ y) := by
  unfold rpowOpt
  rw [if_neg]
  rintro ⟨-, hlt⟩
  linarith

theorem rpowOpt_zero_neg {y : ℝ} (hy : y < 0) : rpowOpt 0 y = none := by
  unfold rpowOpt
  rw [if_pos ⟨rfl, hy⟩]

/-- Bounding `x ^ (p/q) ≤ y` reduces to the polynomial inequality `x^p ≤ y^q`. -/
theorem rpow_div_le {p q : ℕ} (hq : q ≠ 0) {x y : ℝ} (hx : 0 ≤ x) (hy : 0 ≤ y)
    (h : x ^ p ≤ y ^ q) : x ^ ((p : ℝ) / q) ≤ y := by
  have hkey : (x ^ ((p : ℝ) / q)) ^ q = x ^ p := by
    rw [← Real.rpow_natCast (x ^ ((p : ℝ) / q)) q, ← Real.rpow_mul hx,
      div_mul_cancel₀ (p : ℝ) (by exact_mod_cast hq : (q : ℝ) ≠ 0), Real.rpow_natCast]
  have h2 : (x ^ ((p : ℝ) / q)) ^ q ≤ y ^ q := by rw [hkey]; exact h
  exact (pow_le_pow_iff_left₀ (Real.rpow_nonneg hx _) hy hq).mp h2

/-- Bounding `y ≤ x ^ (p/q)` reduces to the polynomial inequality `y^q ≤ x^p`. -/
theorem le_rpow_div {p q : ℕ} (hq : q ≠ 0) {x y : ℝ} (hx : 0 ≤ x) (hy : 0 ≤ y)
    (h : y ^ q ≤ x ^ p) : y ≤ x ^ ((p : ℝ) / q) := by
  have hkey : (x ^ ((p : ℝ) / q)) ^ q = x ^ p := by
    rw [← Real.rpow_natCast (x ^ ((p : ℝ) / q)) q, ← Real.rpow_mul hx,
      div_mul_cancel₀ (p : ℝ) (by exact_mod_cast hq : (q : ℝ) ≠ 0), Real.rpow_natCast]
  have h2 : y ^ q ≤ (x ^ ((p : ℝ) / q)) ^ q := by rw [hkey]; exact h
  exact (pow_le_pow_iff_left₀ hy (Real.rpow_nonneg hx _) hq).mp h2

theorem srgb_to_linear_nonneg (c : ℝ) : 0 ≤ srgb_to_linear c := by
  unfold srgb_to_linear
  split
  · have := clamp_nonneg c
    positivity
  · exact Real.rpow_nonneg (by have := clamp_nonneg c; positivity) _

theorem srgb_to_linear_le_one (c : ℝ) : srgb_to_linear c ≤ 1 := by
  unfold srgb_to_linear
  split
  next h =>
    have := clamp_nonneg c
    rw [div_le_one (by norm_num)]
    linarith
  next h =>
    have h1 := clamp_le_one c
    have h0 := clamp_nonneg c
    have hu : (clamp c + 0.055) / 1.055 ≤ 1 := by
      rw [div_le_one (by norm_num)]
      linarith
    exact Real.rpow_le_one (by positivity) hu (by norm_num)

theorem linear_to_srgb_nonneg (c : ℝ) : 0 ≤ linear_to_srgb c := by
  unfold linear_to_srgb
  split
  next h =>
    have := clamp_nonneg c
    positivity
  next h =>
    push_neg at h
    have h0 := clamp_nonneg c
    have hs : (0.0904 : ℝ) ≤ clamp c ^ ((1.0 : ℝ) / 2.4) := by
      have he : (1.0 : ℝ) / 2.4 = (5 : ℕ) / (12 : ℕ) := by norm_num
      rw [he]
      refine le_rpow_div (by norm_num) h0 (by norm_num) ?_
      calc (0.0904 : ℝ) ^ 12 ≤ 0.0031308 ^ 5 := by norm_num
        _ ≤ clamp c ^ 5 := pow_le_pow_left₀ (by norm_num) h.le 5
    nlinarith

theorem linear_to_srgb_le_one (c : ℝ) : linear_to_srgb c ≤ 1 := by
  unfold linear_to_srgb
  split
  next h =>
    have := clamp_nonneg c
    nlinarith
  next h =>
    have h0 := clamp_nonneg c
    have h1 := clamp_le_one c
    have hs : clamp c ^ ((1.0 : ℝ) / 2.4) ≤ 1 := Real.rpow_le_one h0 h1 (by norm_num)
    nlinarith

theorem srgb_to_linear_zero : srgb_to_linear 0 = 0 := by
  unfold srgb_to_linear
  rw [clamp_of_mem le_rfl (by norm_num)]
  rw [if_pos (by norm_num)]
  norm_num

theorem srgb_to_linear_one : srgb_to_linear 1 = 1 := by
  unfold srgb_to_linear
  rw [clamp_of_mem (by norm_num) le_rfl, if_neg (by norm_num),
    show ((1 : ℝ) + 0.055) / 1.055 = 1 by norm_num, Real.one_rpow]

theorem linear_to_srgb_zero : linear_to_srgb 0 = 0 := by
  unfold linear_to_srgb
  rw [clamp_of_mem le_rfl (by norm_num)]
  rw [if_pos (by norm_num)]
  norm_num

/-- Bound `x ^ (1/2.4)` above via the rational inequality `x^5 ≤ y^12`. -/
theorem rpow_inv24_le {x y : ℝ} (hx : 0 ≤ x) (hy : 0 ≤ y)
    (h : x ^ (5 : ℕ) ≤ y ^ (12 : ℕ)) : x ^ ((1.0 : ℝ) / 2.4) ≤ y := by
  have he : ((1.0 : ℝ) / 2.4) = ((5 : ℕ) : ℝ) / ((12 : ℕ) : ℝ) := by push_cast; norm_num
  rw [he]
  exact rpow_div_le (by norm_num) hx hy h

/-- Bound `x ^ (1/2.4)` below via the rational inequality `y^12 ≤ x^5`. -/
theorem le_rpow_inv24 {x y : ℝ} (hx : 0 ≤ x) (hy : 0 ≤ y)
    (h : y ^ (12 : ℕ) ≤ x ^ (5 : ℕ)) : y ≤ x ^ ((1.0 : ℝ) / 2.4) := by
  have he : ((1.0 : ℝ) / 2.4) = ((5 : ℕ) : ℝ) / ((12 : ℕ) : ℝ) := by push_cast; norm_num
  rw [he]
  exact le_rpow_div (by norm_num) hx hy h

/-- Bound `x ^ 2.4` below via the rational inequality `y^5 ≤ x^12`. -/
theorem le_rpow_24 {x y : ℝ} (hx : 0 ≤ x) (hy : 0 ≤ y)
    (h : y ^ (5 : ℕ) ≤ x ^ (12 : ℕ)) : y ≤ x ^ (2.4 : ℝ) := by
  have he : (2.4 : ℝ) = ((12 : ℕ) : ℝ) / ((5 : ℕ) : ℝ) := by push_cast; norm_num
  rw [he]
  exact le_rpow_div (by norm_num) hx hy h

/-- Round trip of the sRGB transfer pair on `[0,1]`, within `1e-4`.  The
trip is exact except on the sliver `(0.0031308·12.92, 0.04045]` where the
two breakpoint constants disagree; there the deviation stays below
`1e-4`. -/
theorem srgb_roundtrip_close {c : ℝ} (h0 : 0 ≤ c) (h1 : c ≤ 1) :
    |linear_to_srgb (srgb_to_linear c) - c| ≤ 1e-4 := by
  have hc : clamp c = c := clamp_of_mem h0 h1
  unfold srgb_to_linear
  rw [hc]
  by_cases hA : c ≤ 0.04045
  · rw [if_pos hA]
    have ht0 : 0 ≤ c / 12.92 := by positivity
    have ht1 : c / 12.92 ≤ 1 := by
      rw [div_le_one (by norm_num)]
      linarith
    unfold linear_to_srgb
    rw [clamp_of_mem ht0 ht1]
    by_cases hB : c / 12.92 ≤ 0.0031308
    · rw [if_pos hB, div_mul_cancel₀ c (by norm_num : (12.92 : ℝ) ≠ 0), sub_self, abs_zero]
      norm_num
    · rw [if_neg hB]
      push_neg at hB
      have hclb : (0.040449936 : ℝ) < c := by
        have h2 := (lt_div_iff₀ (by norm_num : (0 : ℝ) < 12.92)).mp hB
        linarith
      have hs_ub : (c / 12.92) ^ ((1.0 : ℝ) / 2.4) ≤ 0.09056 := by
        refine rpow_inv24_le ht0 (by norm_num) ?_
        calc (c / 12.92) ^ (5 : ℕ) ≤ (0.04045 / 12.92) ^ (5 : ℕ) := by
              refine pow_le_pow_left₀ ht0 ?_ 5
              gcongr
          _ ≤ (0.09056 : ℝ) ^ (12 : ℕ) := by norm_num
      have hs_lb : (0.0904 : ℝ) ≤ (c / 12.92) ^ ((1.0 : ℝ) / 2.4) := by
        refine le_rpow_inv24 ht0 (by norm_num) ?_
        calc (0.0904 : ℝ) ^ (12 : ℕ) ≤ (0.0031308 : ℝ) ^ (5 : ℕ) := by norm_num
          _ ≤ (c / 12.92) ^ (5 : ℕ) := pow_le_pow_left₀ (by norm_num) hB.le 5
      rw [abs_le]
      constructor
      · linarith
      · linarith
  · rw [if_neg hA]
    push_neg at hA
    have hu0 : 0 ≤ (c + 0.055) / 1.055 := by positivity
    have hu1 : (c + 0.055) / 1.055 ≤ 1 := by
      rw [div_le_one (by norm_num)]
      linarith
    have hulb : (0.09545 : ℝ) / 1.055 < (c + 0.055) / 1.055 := by
      gcongr
      linarith
    have hlin0 : 0 ≤ ((c + 0.055) / 1.055) ^ (2.4 : ℝ) := Real.rpow_nonneg hu0 _
    have hlin1 : ((c + 0.055) / 1.055) ^ (2.4 : ℝ) ≤ 1 :=
      Real.rpow_le_one hu0 hu1 (by norm_num)
    unfold linear_to_srgb
    rw [clamp_of_mem hlin0 hlin1]
    by_cases hB : ((c + 0.055) / 1.055) ^ (2.4 : ℝ) ≤ 0.0031308
    · exfalso
      have hlow : (0.0031308 : ℝ) ≤ ((0.09545 : ℝ) / 1.055) ^ (2.4 : ℝ) :=
        le_rpow_24 (by norm_num) (by norm_num) (by norm_num)
      have hmono : ((0.09545 : ℝ) / 1.055) ^ (2.4 : ℝ) < ((c + 0.055) / 1.055) ^ (2.4 : ℝ) :=
        Real.rpow_lt_rpow (by norm_num) hulb (by norm_num)
      linarith
    · rw [if_neg hB]
      have hkey : (((c + 0.055) / 1.055) ^ (2.4 : ℝ)) ^ ((1.0 : ℝ) / 2.4) = (c + 0.055) / 1.055 := by
        rw [← Real.rpow_mul hu0, show (2.4 : ℝ) * (1.0 / 2.4) = 1 by norm_num, Real.rpow_one]
      rw [hkey, show 1.055 * ((c + 0.055) / 1.055) - 0.055 - c = 0 by field_simp, abs_zero]
      norm_num

/-- The outer clamps of the grading return path are no-ops on a decoded
channel: decoded values and re-encoded values already lie in `[0,1]`. -/
theorem encode_clamps_vanish (x : ℝ) :
    clamp (linear_to_srgb (clamp (srgb_to_linear x))) = linear_to_srgb (srgb_to_linear x) := by
  rw [clamp_of_mem (srgb_to_linear_nonneg x) (srgb_to_linear_le_one x),
    clamp_of_mem (linear_to_srgb_nonneg _) (linear_to_srgb_le_one _)]

/-- C6: for every channel value `c` in `[0,1]`,
`linear_to_srgb (srgb_to_linear c)` equals `c` within `1e-4` (the bound
holds everywhere, including at the transfer-function breakpoint). -/
theorem c6_srgb_roundtrip (c : ℝ) (h0 : 0 ≤ c) (h1 : c ≤ 1) :
    |linear_to_srgb (srgb_to_linear c) - c| ≤ 1e-4 :=
  srgb_roundtrip_close h0 h1

/-- Witness for C6 at `c = 0.5`. -/
theorem c6_srgb_roundtrip_witness :
    (0 ≤ (0.5 : ℝ) ∧ (0.5 : ℝ) ≤ 1) ∧ |linear_to_srgb (srgb_to_linear 0.5) - 0.5| ≤ 1e-4 :=
  ⟨⟨by norm_num, by norm_num⟩, c6_srgb_roundtrip 0.5 (by norm_num) (by norm_num)⟩

/-- C5: `grade_color` with the neutral parameters (saturation 1,
contrast 1, gamma 1, lift 0, gain 1, warmth 0, cool 0, shadow_teal 0)
returns, for every input with components in `[0,1]`, a triple equal to
the input within `1e-3` in every component. -/
theorem c5_neutral_grade_identity (rgb : Rgb)
    (h0r : 0 ≤ rgb.1) (h1r : rgb.1 ≤ 1) (h0g : 0 ≤ rgb.2.1) (h1g : rgb.2.1 ≤ 1)
    (h0b : 0 ≤ rgb.2.2) (h1b : rgb.2.2 ≤ 1) :
    ∃ out : Rgb, grade_color rgb 1 1 1 0 1 0 0 0 = some out ∧
      |out.1 - rgb.1| ≤ 1e-3 ∧ |out.2.1 - rgb.2.1| ≤ 1e-3 ∧ |out.2.2 - rgb.2.2| ≤ 1e-3 := by
  simp only [grade_color]
  rw [if_neg (by norm_num)]
  refine ⟨_, rfl, ?_, ?_, ?_⟩
  · dsimp only
    ring_nf
    rw [encode_clamps_vanish]
    exact le_trans (srgb_roundtrip_close h0r h1r) (by norm_num)
  · dsimp only
    ring_nf
    rw [encode_clamps_vanish]
    exact le_trans (srgb_roundtrip_close h0g h1g) (by norm_num)
  · dsimp only
    ring_nf
    rw [encode_clamps_vanish]
    exact le_trans (srgb_roundtrip_close h0b h1b) (by norm_num)

/-- Witness for C5 at `rgb = (0.25, 0.5, 0.75)`. -/
theorem c5_neutral_grade_witness :
    ∃ out : Rgb, grade_color ((0.25 : ℝ), (0.5 : ℝ), (0.75 : ℝ)) 1 1 1 0 1 0 0 0 = some out ∧
      |out.1 - ((0.25 : ℝ), (0.5 : ℝ), (0.75 : ℝ)).1| ≤ 1e-3 ∧
      |out.2.1 - ((0.25 : ℝ), (0.5 : ℝ), (0.75 : ℝ)).2.1| ≤ 1e-3 ∧
      |out.2.2 - ((0.25 : ℝ), (0.5 : ℝ), (0.75 : ℝ)).2.2| ≤ 1e-3 :=
  c5_neutral_grade_identity (0.25, 0.5, 0.75) (by norm_num) (by norm_num) (by norm_num)
    (by norm_num) (by norm_num) (by norm_num)

/-- Threading the three gamma-power options through the bind chain and
then re-encoding each channel is the same as re-encoding after the chain:
the plumbing step that links `grade_color`'s return statement to the
specification's final encode stage. -/
theorem bind3_map_encode (o1 o2 o3 : Option ℝ) :
    (do
      let a ← o1
      let b ← o2
      let c ← o3
      pure ((clamp (linear_to_srgb (clamp a)), clamp (linear_to_srgb (clamp b)),
        clamp (linear_to_srgb (clamp c))) : Rgb)) =
    Option.map encode_stage (do
      let a ← o1
      let b ← o2
      let c ← o3
      pure ((a, b, c) : Rgb)) := by
  cases o1 <;> cases o2 <;> cases o3 <;> rfl

/-- C1: `grade_color` is exactly the composition the specification gives:
decode to linear, white balance, shadow-weighted teal bias (weight
`clamp(1 - luma*1.8, 0, 1)` from the decoded luma), saturation toward the
recomputed luma, contrast about pivot 0.18, lift then gain, guarded
power-law gamma on the clamped non-negative value, then
clamp/encode/clamp — in this order. -/
theorem c1_grade_color_matches_stage_order (rgb : Rgb)
    (saturation contrast gamma lift gain warmth cool shadow_teal : ℝ) :
    grade_color rgb saturation contrast gamma lift gain warmth cool shadow_teal =
      spec_color_pipeline rgb saturation contrast gamma lift gain warmth cool shadow_teal := by
  simp only [grade_color, spec_color_pipeline, decode_stage, wb_stage, shadow_teal_stage,
    saturation_stage, contrast_stage, lift_gain_stage, gamma_stage, encode_stage]
  by_cases hg : |gamma - 1.0| > 1e-6
  · rw [if_pos hg, if_pos hg, bind3_map_encode]
  · rw [if_neg hg, if_neg hg]
    rfl

/-- C4 (amended): for every finite input triple, every color-grade
parameter set with `gamma ≥ 0`, and every monochrome parameter set with
`gamma ≥ 0`, both grading functions return a triple with every component
in `[0,1]` and never fail. -/
theorem c4_grading_total_in_unit_range (rgb : Rgb)
    (saturation contrast gamma lift gain warmth cool shadow_teal : ℝ)
    (weights : Rgb) (bwContrast bwGamma warm_tone : ℝ)
    (hg : 0 ≤ gamma) (hbg : 0 ≤ bwGamma) :
    (∃ t : Rgb, grade_color rgb saturation contrast gamma lift gain warmth cool shadow_teal = some t ∧
      0 ≤ t.1 ∧ t.1 ≤ 1 ∧ 0 ≤ t.2.1 ∧ t.2.1 ≤ 1 ∧ 0 ≤ t.2.2 ∧ t.2.2 ≤ 1) ∧
    (∃ t : Rgb, grade_bw rgb weights bwContrast bwGamma warm_tone = some t ∧
      0 ≤ t.1 ∧ t.1 ≤ 1 ∧ 0 ≤ t.2.1 ∧ t.2.1 ≤ 1 ∧ 0 ≤ t.2.2 ∧ t.2.2 ≤ 1) := by
  constructor
  · simp only [grade_color]
    by_cases hcond : |gamma - 1.0| > 1e-6
    · rw [if_pos hcond, rpowOpt_of_nonneg _ hg, rpowOpt_of_nonneg _ hg, rpowOpt_of_nonneg _ hg]
      exact ⟨_, rfl, clamp_nonneg _, clamp_le_one _, clamp_nonneg _, clamp_le_one _,
        clamp_nonneg _, clamp_le_one _⟩
    · rw [if_neg hcond]
      exact ⟨_, rfl, clamp_nonneg _, clamp_le_one _, clamp_nonneg _, clamp_le_one _,
        clamp_nonneg _, clamp_le_one _⟩
  · simp only [grade_bw]
    rw [rpowOpt_of_nonneg _ hbg]
    exact ⟨_, rfl, clamp_nonneg _, clamp_le_one _, clamp_nonneg _, clamp_le_one _,
      clamp_nonneg _, clamp_le_one _⟩

/-- Counterexample to C4 as stated: at input `(0,0,0)` with parameters
saturation 1, contrast 1, gamma `-1`, lift 0, gain 1, warmth 0, cool 0,
shadow_teal 0, the pre-gamma value is 0 and `pow(0.0, -1)` raises
`ZeroDivisionError`, so `grade_color` returns no triple at all. -/
theorem c4_negative_gamma_fails :
    ¬ ∃ t : Rgb, grade_color ((0 : ℝ), (0 : ℝ), (0 : ℝ)) 1 1 (-1) 0 1 0 0 0 = some t := by
  have hnone : grade_color ((0 : ℝ), (0 : ℝ), (0 : ℝ)) 1 1 (-1) 0 1 0 0 0 = none := by
    simp only [grade_color]
    rw [if_pos (by norm_num)]
    simp only [srgb_to_linear_zero, rgb_to_luma]
    ring_nf
    simp [rpowOpt]
  rintro ⟨t, ht⟩
  rw [hnone] at ht
  exact Option.noConfusion ht

/-- Witness for C4 at the specification's example input `(5, -3, 1e9)`
with the Tri-X-style parameters and gamma 2 / 1.02. -/
theorem c4_grading_total_witness :
    (∃ t : Rgb, grade_color ((5 : ℝ), (-3 : ℝ), (1e9 : ℝ)) 0.93 0.95 2 0.01 1 0.22 0 0 = some t ∧
      0 ≤ t.1 ∧ t.1 ≤ 1 ∧ 0 ≤ t.2.1 ∧ t.2.1 ≤ 1 ∧ 0 ≤ t.2.2 ∧ t.2.2 ≤ 1) ∧
    (∃ t : Rgb, grade_bw ((5 : ℝ), (-3 : ℝ), (1e9 : ℝ)) (0.32, 0.56, 0.12) 1.20 1.02 0.06 = some t ∧
      0 ≤ t.1 ∧ t.1 ≤ 1 ∧ 0 ≤ t.2.1 ∧ t.2.1 ≤ 1 ∧ 0 ≤ t.2.2 ∧ t.2.2 ≤ 1) :=
  c4_grading_total_in_unit_range (5, -3, 1e9) 0.93 0.95 2 0.01 1 0.22 0 0
    (0.32, 0.56, 0.12) 1.20 1.02 0.06 (by norm_num) (by norm_num)

/-- C9: whenever `grade_bw` with `warm_tone = 0` returns a triple, that
triple has equal R, G and B components. -/
theorem c9_bw_neutral_gray (rgb weights : Rgb) (contrast gamma : ℝ) (t : Rgb)
    (h : grade_bw rgb weights contrast gamma 0 = some t) :
    t.1 = t.2.1 ∧ t.2.1 = t.2.2 := by
  simp only [grade_bw] at h
  rcases hro : rpowOpt (max (bw_lum rgb weights contrast) 0.0) gamma with _ | lum
  · rw [hro] at h
    simp at h
  · rw [hro, Option.map_some'] at h
    injection h with h'
    subst h'
    constructor <;> norm_num

/-- Evaluation of `grade_bw` at the all-zero input with unit parameters:
a concrete evaluation used by the monochrome witnesses. -/
theorem grade_bw_zero_eval :
    grade_bw ((0 : ℝ), (0 : ℝ), (0 : ℝ)) ((0 : ℝ), (0 : ℝ), (0 : ℝ)) 1 1 0 =
      some ((0 : ℝ), (0 : ℝ), (0 : ℝ)) := by
  have h1 : weighted_lum ((0 : ℝ), (0 : ℝ), (0 : ℝ)) ((0 : ℝ), (0 : ℝ), (0 : ℝ)) = 0 := by
    simp [weighted_lum, srgb_to_linear_zero]
  have h2 : bw_lum ((0 : ℝ), (0 : ℝ), (0 : ℝ)) ((0 : ℝ), (0 : ℝ), (0 : ℝ)) 1 = 0 := by
    rw [bw_lum, h1, clamp_of_mem le_rfl zero_le_one,
      show ((0 : ℝ) - 0.18) * 1 + 0.18 = 0 by norm_num]
    exact clamp_of_mem le_rfl zero_le_one
  rw [grade_bw, h2, show max (0 : ℝ) 0.0 = 0 by norm_num,
    rpowOpt_of_nonneg _ (by norm_num : (0 : ℝ) ≤ 1), Real.rpow_one, Option.map_some']
  norm_num [clamp_of_mem le_rfl zero_le_one, linear_to_srgb_zero]

/-- Witness for C9: at black input the theorem applies and the returned
triple `(0,0,0)` indeed has equal components. -/
theorem c9_bw_neutral_gray_witness :
    grade_bw ((0 : ℝ), (0 : ℝ), (0 : ℝ)) ((0 : ℝ), (0 : ℝ), (0 : ℝ)) 1 1 0 =
        some ((0 : ℝ), (0 : ℝ), (0 : ℝ)) ∧
      ((0 : ℝ), (0 : ℝ), (0 : ℝ)).1 = ((0 : ℝ), (0 : ℝ), (0 : ℝ)).2.1 ∧
      ((0 : ℝ), (0 : ℝ), (0 : ℝ)).2.1 = ((0 : ℝ), (0 : ℝ), (0 : ℝ)).2.2 :=
  ⟨grade_bw_zero_eval,
   c9_bw_neutral_gray (0, 0, 0) (0, 0, 0) 1 1 (0, 0, 0) grade_bw_zero_eval⟩

/-- C10: in `grade_bw` the weighted luma is clamped right after the
weighted sum and again after the contrast stage, so the base
`max(lum, 0)` fed to the gamma power lies in `[0,1]`; consequently two
inputs whose raw weighted lumas are both at least 1, or both at most 0,
grade to identical output under the same parameters. -/
theorem c10_bw_luma_clamped_saturation (weights : Rgb) (contrast gamma warm_tone : ℝ)
    (rgb1 rgb2 : Rgb) :
    (0 ≤ max (bw_lum rgb1 weights contrast) 0.0 ∧ max (bw_lum rgb1 weights contrast) 0.0 ≤ 1) ∧
    (((1 ≤ weighted_lum rgb1 weights ∧ 1 ≤ weighted_lum rgb2 weights) ∨
        (weighted_lum rgb1 weights ≤ 0 ∧ weighted_lum rgb2 weights ≤ 0)) →
      grade_bw rgb1 weights contrast gamma warm_tone =
        grade_bw rgb2 weights contrast gamma warm_tone) := by
  constructor
  · exact ⟨le_trans (by norm_num) (le_max_right (bw_lum rgb1 weights contrast) 0.0),
      max_le (clamp_le_one _) (by norm_num)⟩
  · intro h
    have hcl : clamp (weighted_lum rgb1 weights) = clamp (weighted_lum rgb2 weights) := by
      rcases h with ⟨ha, hb⟩ | ⟨ha, hb⟩
      · rw [clamp_of_one_le ha, clamp_of_one_le hb]
      · rw [clamp_of_le_zero ha, clamp_of_le_zero hb]
    have hbw : bw_lum rgb1 weights contrast = bw_lum rgb2 weights contrast := by
      unfold bw_lum
      rw [hcl]
    unfold grade_bw
    rw [hbw]

/-- Witness for C10: inputs `(1,1,1)` and `(1,1,0)` with weights `(1,1,1)`
have weighted lumas 3 and 2, both at least 1, so they grade identically. -/
theorem c10_bw_saturation_witness :
    ((0 ≤ max (bw_lum ((1 : ℝ), (1 : ℝ), (1 : ℝ)) ((1 : ℝ), (1 : ℝ), (1 : ℝ)) 1) 0.0 ∧
        max (bw_lum ((1 : ℝ), (1 : ℝ), (1 : ℝ)) ((1 : ℝ), (1 : ℝ), (1 : ℝ)) 1) 0.0 ≤ 1) ∧
      grade_bw ((1 : ℝ), (1 : ℝ), (1 : ℝ)) ((1 : ℝ), (1 : ℝ), (1 : ℝ)) 1 1 0 =
        grade_bw ((1 : ℝ), (1 : ℝ), (0 : ℝ)) ((1 : ℝ), (1 : ℝ), (1 : ℝ)) 1 1 0) := by
  have hw1 : weighted_lum ((1 : ℝ), (1 : ℝ), (1 : ℝ)) ((1 : ℝ), (1 : ℝ), (1 : ℝ)) = 3 := by
    simp [weighted_lum, srgb_to_linear_one]
    norm_num
  have hw2 : weighted_lum ((1 : ℝ), (1 : ℝ), (0 : ℝ)) ((1 : ℝ), (1 : ℝ), (1 : ℝ)) = 2 := by
    simp [weighted_lum, srgb_to_linear_one, srgb_to_linear_zero]
    norm_num
  refine ⟨(c10_bw_luma_clamped_saturation ((1 : ℝ), (1 : ℝ), (1 : ℝ)) 1 1 0
      ((1 : ℝ), (1 : ℝ), (1 : ℝ)) ((1 : ℝ), (1 : ℝ), (0 : ℝ))).1,
    (c10_bw_luma_clamped_saturation ((1 : ℝ), (1 : ℝ), (1 : ℝ)) 1 1 0
      ((1 : ℝ), (1 : ℝ), (1 : ℝ)) ((1 : ℝ), (1 : ℝ), (0 : ℝ))).2 (Or.inl ⟨?_, ?_⟩)⟩
  · rw [hw1]
    norm_num
  · rw [hw2]
    norm_num

/-- C7: for level 2 (size 4, width 8) the index-to-pixel map
`idx ↦ (idx mod 8, idx div 8)` lists all 64 positions of the 8×8 image
without repetition, and the cube decomposition sends index 5 to
`(rIdx, gIdx, bIdx) = (1, 1, 0)`. -/
theorem c7_cube_layout_bijection :
    (((List.range 64).map fun i => (pixel_x i 8, pixel_y i 8)).Nodup ∧
      (∀ x, x < 8 → ∀ y, y < 8 →
        (x, y) ∈ (List.range 64).map fun i => (pixel_x i 8, pixel_y i 8)) ∧
      ((List.range 64).map fun i => (pixel_x i 8, pixel_y i 8)).length = 64) ∧
    r_index 5 4 = 1 ∧ g_index 5 4 = 1 ∧ b_index 5 4 = 0 := by
  decide

/-- Stepping the sampler loop preserves the buffer length: every
iteration only stores into existing positions. -/
theorem foldl_write_length (f : ℕ → List ℕ → List ℕ)
    (hf : ∀ i acc, (f i acc).length = acc.length) :
    ∀ (l : List ℕ) (init : List ℕ),
      (l.foldl (fun acc i => f i acc) init).length = init.length := by
  intro l
  induction l with
  | nil => intro init; rfl
  | cons a t ih =>
    intro init
    simp only [List.foldl_cons]
    rw [ih (f a init), hf a init]

/-- C2 (amended): for every level at least 2 and every transform, the
sampler succeeds and returns a buffer of `(level³)·(level³)·4` bytes. -/
theorem c2_sampler_length_of_two_le (transform : Rgb → Rgb) (level : ℕ) (hl : 2 ≤ level) :
    ∃ buf, generate_hald_lut transform level = some buf ∧
      buf.length = level ^ 3 * level ^ 3 * 4 := by
  have hsz : (4 : ℕ) ≤ level * level := by nlinarith
  have hden : ((level * level : ℕ) : ℝ) - 1 ≠ 0 := by
    have : (4 : ℝ) ≤ ((level * level : ℕ) : ℝ) := by exact_mod_cast hsz
    intro hcon
    nlinarith
  unfold generate_hald_lut
  rw [if_neg (by
    rintro ⟨h0, -⟩
    exact hden h0)]
  refine ⟨_, rfl, ?_⟩
  rw [foldl_write_length _ (by
    intro i acc
    simp [write_pixel4])]
  rw [List.length_replicate]
  ring

/-- Counterexample to C2 as stated: at level 1 (a positive level) the
sampler's denominator `size - 1` is zero and the first sample already
divides by zero, so no buffer is produced. -/
theorem c2_level_one_fails : generate_hald_lut (fun c : Rgb => c) 1 = none := by
  unfold generate_hald_lut
  rw [if_pos]
  constructor
  · norm_num
  · norm_num

/-- Witness for C2 at level 2 with the identity transform. -/
theorem c2_sampler_length_witness :
    ∃ buf, generate_hald_lut (fun c : Rgb => c) 2 = some buf ∧
      buf.length = 2 ^ 3 * 2 ^ 3 * 4 :=
  c2_sampler_length_of_two_le (fun c => c) 2 (by norm_num)

/-! Byte-level helper lemmas for the container proofs. -/

theorem be32val_u32bytes {n : ℕ} (h : n < 4294967296) : be32val (u32bytes n) = n := by
  simp only [u32bytes, be32val]
  omega

theorem pack32_ok {n : ℕ} (h : n < 4294967296) : pack32 n = Except.ok (u32bytes n) := by
  unfold pack32
  rw [if_pos h]

theorem pack32_cases (n : ℕ) :
    pack32 n = Except.ok (u32bytes n) ∨
      pack32 n = Except.error "struct.error: argument out of range" := by
  unfold pack32
  by_cases h : n < 4294967296
  · left
    rw [if_pos h]
  · right
    rw [if_neg h]

theorem chunkBytes_ok (crc : List ℕ → ℕ) (tag payload : List ℕ)
    (h : payload.length < 4294967296) :
    chunkBytes crc tag payload =
      Except.ok (u32bytes payload.length ++ tag ++ payload ++
        u32bytes (crc (tag ++ payload) % 4294967296)) := by
  unfold chunkBytes
  rw [pack32_ok h]
  rfl

theorem chunkBytes_cases (crc : List ℕ → ℕ) (tag payload : List ℕ) :
    chunkBytes crc tag payload =
        Except.ok (u32bytes payload.length ++ tag ++ payload ++
          u32bytes (crc (tag ++ payload) % 4294967296)) ∨
      chunkBytes crc tag payload = Except.error "struct.error: argument out of range" := by
  rcases pack32_cases payload.length with h | h
  · left
    unfold chunkBytes
    rw [h]
    rfl
  · right
    unfold chunkBytes
    rw [h]
    rfl

theorem take4_cons (a b c d : ℕ) (R : List ℕ) : (a :: b :: c :: d :: R).take 4 = [a, b, c, d] := rfl

theorem drop4_cons (a b c d : ℕ) (R : List ℕ) : (a :: b :: c :: d :: R).drop 4 = R := rfl

theorem drop8_cons (a b c d e f g h : ℕ) (R : List ℕ) :
    (a :: b :: c :: d :: e :: f :: g :: h :: R).drop 8 = R := rfl

theorem take4_u32 (v : ℕ) (R : List ℕ) : (u32bytes v ++ R).take 4 = u32bytes v := rfl

theorem drop4_u32 (v : ℕ) (R : List ℕ) : (u32bytes v ++ R).drop 4 = R := rfl

theorem parseChunks_nil (crc : List ℕ → ℕ) (f : ℕ) : parseChunks crc f [] = some [] := by
  cases f <;> rfl

theorem parseChunks_succ (crc : List ℕ → ℕ) (f : ℕ) (x : ℕ) (xs : List ℕ) :
    parseChunks crc (f + 1) (x :: xs) =
      (if 12 + be32val ((x :: xs).take 4) ≤ (x :: xs).length then
        (if be32val (((x :: xs).drop (8 + be32val ((x :: xs).take 4))).take 4) =
            crc (((x :: xs).drop 4).take 4 ++
              ((x :: xs).drop 8).take (be32val ((x :: xs).take 4))) % 4294967296 then
          (parseChunks crc f ((x :: xs).drop (12 + be32val ((x :: xs).take 4)))).map
            fun rest => (((x :: xs).drop 4).take 4,
              ((x :: xs).drop 8).take (be32val ((x :: xs).take 4))) :: rest
        else none)
      else none) := rfl

/-- Reading one well-formed chunk off the front of a stream: a length
prefix, a 4-byte tag, the payload, and the masked CRC of tag + payload
parse to that `(tag, payload)` entry followed by the parse of the rest. -/
theorem parseChunks_cons (crc : List ℕ → ℕ) (f : ℕ) (t0 t1 t2 t3 : ℕ) (p rest : List ℕ)
    (hp : p.length < 4294967296) :
    parseChunks crc (f + 1)
      (u32bytes p.length ++ [t0, t1, t2, t3] ++ p ++
        u32bytes (crc ([t0, t1, t2, t3] ++ p) % 4294967296) ++ rest) =
    (parseChunks crc f rest).map fun cs => ([t0, t1, t2, t3], p) :: cs := by
  have hL : u32bytes p.length ++ [t0, t1, t2, t3] ++ p ++
        u32bytes (crc ([t0, t1, t2, t3] ++ p) % 4294967296) ++ rest
      = p.length / 16777216 % 256 :: p.length / 65536 % 256 :: p.length / 256 % 256 ::
        p.length % 256 :: t0 :: t1 :: t2 :: t3 ::
        (p ++ (u32bytes (crc ([t0, t1, t2, t3] ++ p) % 4294967296) ++ rest)) := by
    simp [u32bytes]
  rw [hL, parseChunks_succ]
  have hbe : be32val ((p.length / 16777216 % 256 :: p.length / 65536 % 256 ::
      p.length / 256 % 256 :: p.length % 256 :: t0 :: t1 :: t2 :: t3 ::
      (p ++ (u32bytes (crc ([t0, t1, t2, t3] ++ p) % 4294967296) ++ rest))).take 4) = p.length := by
    rw [take4_cons]
    show be32val (u32bytes p.length) = p.length
    exact be32val_u32bytes hp
  rw [hbe, drop4_cons, take4_cons, drop8_cons]
  have hlen : (p.length / 16777216 % 256 :: p.length / 65536 % 256 :: p.length / 256 % 256 ::
      p.length % 256 :: t0 :: t1 :: t2 :: t3 ::
      (p ++ (u32bytes (crc ([t0, t1, t2, t3] ++ p) % 4294967296) ++ rest))).length
      = 12 + p.length + rest.length := by
    simp [u32bytes]
    omega
  rw [if_pos (by rw [hlen]; omega)]
  rw [List.take_left]
  rw [← List.drop_drop p.length 8, drop8_cons, List.drop_left, take4_u32,
    be32val_u32bytes (Nat.mod_lt _ (by norm_num : 0 < 4294967296))]
  rw [if_pos rfl]
  rw [show 12 + p.length = 8 + (4 + p.length) from by omega, ← List.drop_drop (4 + p.length) 8,
    drop8_cons, show 4 + p.length = p.length + 4 from by omega, ← List.drop_drop 4 p.length,
    List.drop_left, drop4_u32]

theorem take8_sig (R : List ℕ) : (pngSignature ++ R).take 8 = pngSignature := rfl

theorem drop8_sig (R : List ℕ) : (pngSignature ++ R).drop 8 = R := rfl

theorem except_ok_bind {α β : Type} (x : α) (f : α → Except String β) :
    (Except.ok x >>= f) = f x := rfl

theorem chunkBytes_split (crc : List ℕ → ℕ) (tag payload : List ℕ) :
    (payload.length < 4294967296 ∧
      chunkBytes crc tag payload =
        Except.ok (u32bytes payload.length ++ tag ++ payload ++
          u32bytes (crc (tag ++ payload) % 4294967296))) ∨
      chunkBytes crc tag payload = Except.error "struct.error: argument out of range" := by
  by_cases h : payload.length < 4294967296
  · exact Or.inl ⟨h, chunkBytes_ok crc tag payload h⟩
  · right
    unfold chunkBytes pack32
    rw [if_neg h]
    rfl

/-- On a size-correct buffer the writer either produces a stream or fails
inside `struct.pack`; no other outcome exists. -/
theorem write_png_cases (width height : ℕ) (rgba : List ℕ) (compress : List ℕ → List ℕ)
    (crc32 : List ℕ → ℕ) (hlen : rgba.length = width * height * 4) :
    (∃ out, write_png_rgba width height rgba compress crc32 = Except.ok out) ∨
      write_png_rgba width height rgba compress crc32 =
        Except.error "struct.error: argument out of range" := by
  unfold write_png_rgba
  rw [if_neg (by simp [hlen])]
  rcases pack32_cases width with hw | hw <;> rw [hw]
  · rcases pack32_cases height with hh | hh <;> rw [hh]
    · simp only [except_ok_bind]
      rw [chunkBytes_ok crc32 ihdrTag _ (by simp [u32bytes])]
      simp only [except_ok_bind]
      rcases chunkBytes_split crc32 idatTag (compress (scanlinesOf width height rgba)) with
        ⟨-, hid⟩ | hid <;> rw [hid]
      · simp only [except_ok_bind]
        rw [chunkBytes_ok crc32 iendTag [] (by norm_num)]
        exact Or.inl ⟨_, rfl⟩
      · right
        rfl
    · right
      rfl
  · right
    rfl

/-- Parsing is monotone in fuel: a successful parse stays successful with
more fuel. -/
theorem parseChunks_mono (crc : List ℕ → ℕ) :
    ∀ (f1 : ℕ) (l : List ℕ) (f2 : ℕ) (r : List (List ℕ × List ℕ)),
      f1 ≤ f2 → parseChunks crc f1 l = some r → parseChunks crc f2 l = some r := by
  intro f1
  induction f1 with
  | zero =>
    intro l f2 r hle h
    cases l with
    | nil =>
      rw [parseChunks_nil] at h
      rw [parseChunks_nil]
      exact h
    | cons x xs =>
      exact absurd h (by rw [show parseChunks crc 0 (x :: xs) = none from rfl]; simp)
  | succ g ih =>
    intro l f2 r hle h
    cases l with
    | nil =>
      rw [parseChunks_nil] at h
      rw [parseChunks_nil]
      exact h
    | cons x xs =>
      obtain ⟨g2, rfl⟩ : ∃ g2, f2 = g2 + 1 := ⟨f2 - 1, by omega⟩
      rw [parseChunks_succ] at h
      rw [parseChunks_succ]
      by_cases h1 : 12 + be32val ((x :: xs).take 4) ≤ (x :: xs).length
      · rw [if_pos h1] at h ⊢
        by_cases h2 : be32val (((x :: xs).drop (8 + be32val ((x :: xs).take 4))).take 4) =
            crc (((x :: xs).drop 4).take 4 ++
              ((x :: xs).drop 8).take (be32val ((x :: xs).take 4))) % 4294967296
        · rw [if_pos h2] at h ⊢
          obtain ⟨a, ha, hb⟩ := Option.map_eq_some'.mp h
          rw [ih _ _ _ (by omega) ha, Option.map_some', hb]
        · rw [if_neg h2] at h
          exact absurd h (by simp)
      · rw [if_neg h1] at h
        exact absurd h (by simp)

theorem list_length_four {α : Type} {l : List α} (h : l.length = 4) :
    ∃ a b c d, l = [a, b, c, d] := by
  cases l with
  | nil => simp at h
  | cons a l1 =>
    cases l1 with
    | nil => simp at h
    | cons b l2 =>
      cases l2 with
      | nil => simp at h
      | cons c l3 =>
        cases l3 with
        | nil => simp at h
        | cons d l4 =>
          cases l4 with
          | nil => exact ⟨a, b, c, d, rfl⟩
          | cons e l5 => simp at h

theorem chunkBytes_ok_val (crc : List ℕ → ℕ) (tag payload : List ℕ)
    (h : payload.length < 4294967296) :
    chunkBytes crc tag payload = Except.ok (chunk_bytes_val crc tag payload) :=
  chunkBytes_ok crc tag payload h

theorem chunkBytes_split_val (crc : List ℕ → ℕ) (tag payload : List ℕ) :
    (payload.length < 4294967296 ∧
      chunkBytes crc tag payload = Except.ok (chunk_bytes_val crc tag payload)) ∨
      chunkBytes crc tag payload = Except.error "struct.error: argument out of range" := by
  by_cases h : payload.length < 4294967296
  · exact Or.inl ⟨h, chunkBytes_ok_val crc tag payload h⟩
  · right
    unfold chunkBytes pack32
    rw [if_neg h]
    rfl

/-- Lemma `parseChunks_cons` restated on the folded chunk rendering, for an
arbitrary 4-byte tag. -/
theorem parseChunks_cons_chunk (crc : List ℕ → ℕ) (f : ℕ) (tag p rest : List ℕ)
    (htag : tag.length = 4) (hp : p.length < 4294967296) :
    parseChunks crc (f + 1) (chunk_bytes_val crc tag p ++ rest) =
      (parseChunks crc f rest).map fun cs => (tag, p) :: cs := by
  obtain ⟨t0, t1, t2, t3, rfl⟩ := list_length_four htag
  unfold chunk_bytes_val
  exact parseChunks_cons crc f t0 t1 t2 t3 p rest hp

/-- A trailing chunk with nothing after it parses to the singleton list. -/
theorem parseChunks_last (crc : List ℕ → ℕ) (f : ℕ) (tag p : List ℕ)
    (htag : tag.length = 4) (hp : p.length < 4294967296) :
    parseChunks crc (f + 1) (chunk_bytes_val crc tag p) = some [(tag, p)] := by
  have h := parseChunks_cons_chunk crc f tag p [] htag hp
  rw [List.append_nil] at h
  rw [h, parseChunks_nil]
  rfl

/-- C3: whenever the encoder is given a buffer of exactly
`width*height*4` bytes and produces an output stream, that stream is the
8-byte signature followed by exactly three well-formed chunks — header,
data, terminator, in that order — each carrying a 4-byte big-endian
payload length, the 4-byte tag, the payload, and the big-endian masked
CRC-32 of tag + payload; the header payload is big-endian width,
big-endian height, bit depth 8, color type 6 and three zero bytes. -/
theorem c3_encoder_stream_structure (width height : ℕ) (rgba : List ℕ)
    (compress : List ℕ → List ℕ) (crc32 : List ℕ → ℕ) (out : List ℕ)
    (hbuf : rgba.length = width * height * 4)
    (hok : write_png_rgba width height rgba compress crc32 = Except.ok out) :
    parsePng crc32 out = some
      [(ihdrTag, u32bytes width ++ u32bytes height ++ [8, 6, 0, 0, 0]),
       (idatTag, compress (scanlinesOf width height rgba)),
       (iendTag, [])] := by
  unfold write_png_rgba at hok
  rw [if_neg (by simp [hbuf])] at hok
  rcases pack32_cases width with hw | hw
  swap
  · rw [hw] at hok
    exact Except.noConfusion hok
  rw [hw] at hok
  rcases pack32_cases height with hh | hh
  swap
  · rw [hh] at hok
    exact Except.noConfusion hok
  rw [hh] at hok
  simp only [except_ok_bind] at hok
  rw [chunkBytes_ok_val crc32 ihdrTag _ (by simp [u32bytes])] at hok
  simp only [except_ok_bind] at hok
  rcases chunkBytes_split_val crc32 idatTag (compress (scanlinesOf width height rgba)) with
    ⟨hidlen, hid⟩ | hid
  swap
  · rw [hid] at hok
    exact Except.noConfusion hok
  rw [hid] at hok
  simp only [except_ok_bind] at hok
  rw [chunkBytes_ok_val crc32 iendTag [] (by norm_num)] at hok
  simp only [except_ok_bind] at hok
  injection hok with hout
  subst hout
  unfold parsePng
  rw [List.append_assoc, List.append_assoc, take8_sig, if_pos rfl, drop8_sig]
  refine parseChunks_mono crc32 (((0 + 1) + 1) + 1) _ _ _ ?_ ?_
  · simp [pngSignature]
  · rw [parseChunks_cons_chunk crc32 ((0 + 1) + 1) ihdrTag _ _ rfl (by simp [u32bytes])]
    rw [parseChunks_cons_chunk crc32 (0 + 1) idatTag _ _ rfl hidlen]
    rw [parseChunks_last crc32 0 iendTag [] rfl (by norm_num)]
    rfl

/-- Witness for C3: a concrete 1×1 all-white buffer encoded with the
identity as stand-in compressor and a constant CRC function; the stream
parses to exactly the header, data and terminator chunks. -/
theorem c3_encoder_stream_witness :
    write_png_rgba 1 1 (List.replicate 4 255) (fun l => l) (fun _ => 7) =
        Except.ok ((write_png_rgba 1 1 (List.replicate 4 255) (fun l => l)
          (fun _ => 7)).toOption.getD []) ∧
      parsePng (fun _ => 7)
          ((write_png_rgba 1 1 (List.replicate 4 255) (fun l => l) (fun _ => 7)).toOption.getD []) =
        some
          [(ihdrTag, u32bytes 1 ++ u32bytes 1 ++ [8, 6, 0, 0, 0]),
           (idatTag, (fun l => l) (scanlinesOf 1 1 (List.replicate 4 255))),
           (iendTag, [])] := by
  have hok : write_png_rgba 1 1 (List.replicate 4 255) (fun l => l) (fun _ => 7) =
      Except.ok ((write_png_rgba 1 1 (List.replicate 4 255) (fun l => l)
        (fun _ => 7)).toOption.getD []) := by rfl
  exact ⟨hok, c3_encoder_stream_structure 1 1 (List.replicate 4 255) (fun l => l) (fun _ => 7) _
    (by decide) hok⟩

/-- C8 (amended): the encoder fails with the size-mismatch error exactly
when the buffer length differs from `width*height*4` (and then emits no
stream); when the buffer matches and width, height and the compressed
payload each fit in 32 bits, the encode succeeds, so in that range the
size mismatch is the only error. -/
theorem c8_size_mismatch_iff (width height : ℕ) (rgba : List ℕ)
    (compress : List ℕ → List ℕ) (crc32 : List ℕ → ℕ) :
    (write_png_rgba width height rgba compress crc32 =
        Except.error "Invalid RGBA buffer size." ↔ rgba.length ≠ width * height * 4) ∧
    (rgba.length = width * height * 4 → width < 4294967296 → height < 4294967296 →
      (compress (scanlinesOf width height rgba)).length < 4294967296 →
      ∃ out, write_png_rgba width height rgba compress crc32 = Except.ok out) := by
  constructor
  · constructor
    · intro herr
      by_contra hlen
      rcases write_png_cases width height rgba compress crc32 hlen with ⟨o, ho⟩ | ho
      · rw [ho] at herr
        exact Except.noConfusion herr
      · rw [ho] at herr
        injection herr with hmsg
        exact absurd hmsg (by decide)
    · intro hne
      unfold write_png_rgba
      rw [if_pos hne]
  · intro hlen hw hh hc
    unfold write_png_rgba
    rw [if_neg (by simp [hlen]), pack32_ok hw, pack32_ok hh]
    simp only [except_ok_bind]
    rw [chunkBytes_ok_val crc32 ihdrTag _ (by simp [u32bytes])]
    simp only [except_ok_bind]
    rw [chunkBytes_ok_val crc32 idatTag _ hc]
    simp only [except_ok_bind]
    rw [chunkBytes_ok_val crc32 iendTag [] (by norm_num)]
    simp only [except_ok_bind]
    exact ⟨_, rfl⟩

/-- Counterexample to C8 as stated: with width `2^32` (and a buffer of the
matching size `2^32 * 1 * 4`), the size validation passes and the encoder
then fails inside `struct.pack(">I", width)` — an error that is not the
size mismatch, so the size mismatch is not the only error the encoder can
raise. -/
theorem c8_struct_range_failure :
    write_png_rgba 4294967296 1 (List.replicate 17179869184 0) (fun l => l) (fun _ => 0) =
        Except.error "struct.error: argument out of range" ∧
      (List.replicate 17179869184 (0 : ℕ)).length = 4294967296 * 1 * 4 := by
  constructor
  · unfold write_png_rgba
    rw [if_neg (by rw [List.length_replicate]; norm_num)]
    rw [show pack32 4294967296 = Except.error "struct.error: argument out of range" from by
      unfold pack32
      rw [if_neg (by norm_num)]]
    rfl
  · rw [List.length_replicate]

/-- Witness for C8 on a 1×1 buffer: the failure points of the amended
statement are all discharged and an output stream exists. -/
theorem c8_size_mismatch_witness :
    ∃ out, write_png_rgba 1 1 (List.replicate 4 0) (fun l => l) (fun _ => 0) = Except.ok out :=
  (c8_size_mismatch_iff 1 1 (List.replicate 4 0) (fun l => l) (fun _ => 0)).2
    (by decide) (by norm_num) (by norm_num) (by decide)
